import Mathlib

/-!
Verification of the fintech pipeline in src/main.py against its
natural-language specification.

Modelling conventions:
- JSONB payloads are modelled by the inductive type PyJson, with Python
  truthiness given by pyTruthy (used by the branch in main).
- Calendar dates are modelled as natural numbers (one value per day).
- The transactions_raw table is a list of RawRow in insertion order; the
  SERIAL surrogate id of a new row is strictly larger than every existing
  id (nextRawId), which is all the SQL sequence guarantees that matters here.
- The SQL query in get_latest_transactions is
    SELECT data FROM transactions_raw ORDER BY retrieved_date DESC LIMIT 1
  with no tie-break column, so on ties SQL does not determine which row is
  returned.  We model the query by the list of its permitted results
  (latestResults); a concrete execution returns one element of that list.
- The recommendations table is a list of RecRow; save_recommendation is the
  single INSERT ... ON CONFLICT (date) DO UPDATE statement (upsertRec).
- The two network calls (Plaid fetch, OpenRouter completion) and possible
  database statement failures are resolved by an environment record Env
  passed to the model of main (mainRun); console output is modelled as the
  list of printed messages with the emoji prefixes omitted.
-/

/-- A JSON-like Python value, as stored in the JSONB columns. -/
inductive PyJson where
  | null : PyJson
  | bool : Bool → PyJson
  | num : Int → PyJson
  | str : String → PyJson
  | arr : List PyJson → PyJson
  | obj : List (String × PyJson) → PyJson

/-- Python truthiness of a JSON-like value: None, False, 0, empty string,
empty list and empty dict are falsy, everything else is truthy. -/
def pyTruthy : PyJson → Bool
  | .null => false
  | .bool b => b
  | .num n => n != 0
  | .str s => s ≠ ""
  | .arr xs => ¬ xs.isEmpty
  | .obj kvs => ¬ kvs.isEmpty

/-- Truthiness of the value bound to latest_data in main: the Python None
returned for an empty table is falsy, otherwise the payload decides. -/
def truthyOpt : Option PyJson → Bool
  | none => false
  | some p => pyTruthy p

/-- One row of the transactions_raw table. -/
structure RawRow where
  id : Nat
  retrievedDate : Nat
  data : PyJson

/-- The SERIAL id assigned to the next inserted row: strictly larger than
every id already in the table (the sequence is monotonic). -/
def nextRawId (t : List RawRow) : Nat :=
  (t.foldr (fun r m => max r.id m) 0) + 1

/-- save_raw: INSERT INTO transactions_raw (retrieved_date, data)
VALUES (today, data).  Appends one new row and touches nothing else. -/
def insertRaw (t : List RawRow) (p : PyJson) (d : Nat) : List RawRow :=
  t ++ [⟨nextRawId t, d, p⟩]

/-- The largest retrieved_date present in the table (0 for the empty table). -/
def maxDate (t : List RawRow) : Nat :=
  t.foldr (fun r m => max r.retrievedDate m) 0

/-- get_latest_transactions runs
SELECT data FROM transactions_raw ORDER BY retrieved_date DESC LIMIT 1
and returns row["data"] if a row came back, else None.  The ORDER BY has no
tie-break column, so when several rows share the maximal retrieved_date the
SQL semantics permit any of them; this function returns the list of all
permitted results (never empty). -/
def latestResults (t : List RawRow) : List (Option PyJson) :=
  if t.isEmpty then [none]
  else ((t.filter (fun r => r.retrievedDate = maxDate t)).map (fun r => some r.data))

/-- One row of the recommendations table. -/
structure RecRow where
  id : Nat
  date : Nat
  summary : String
  recommendations : PyJson

/-- The JSONB envelope save_recommendation stores in the recommendations
column: the dictionary with the single key "text" bound to the summary. -/
def recEnvelope (s : String) : PyJson :=
  .obj [("text", .str s)]

/-- save_recommendation: INSERT INTO recommendations (date, summary,
recommendations) VALUES (today, summary, envelope) ON CONFLICT (date)
DO UPDATE SET summary = EXCLUDED.summary,
recommendations = EXCLUDED.recommendations.
If a row for the date exists its summary and recommendations are replaced in
place (id and date untouched); otherwise a new row is appended with the next
surrogate id.  Returns the table and the next free id.  updRec is the
per-row conditional replacement the DO UPDATE clause performs. -/
def updRec (d : Nat) (s : String) (r : RecRow) : RecRow :=
  if r.date = d then
    { r with summary := s, recommendations := recEnvelope s }
  else r

def upsertRec (t : List RecRow) (n : Nat) (d : Nat) (s : String) :
    List RecRow × Nat :=
  if t.any (fun r => r.date = d) then
    (t.map (updRec d s), n)
  else
    (t ++ [⟨n, d, s, recEnvelope s⟩], n + 1)

/-- The surrogate id of the record that holds date d after an upsert: the id
of the existing record for d if there is one, else the next free id. -/
def upsertKeyId (t : List RecRow) (n : Nat) (d : Nat) : Nat :=
  match t.filter (fun r => r.date = d) with
  | [] => n
  | r :: _ => r.id

/-- The persistent database state: both tables, plus the next SERIAL id of
the recommendations table. -/
structure DB where
  raw : List RawRow
  recs : List RecRow
  recNextId : Nat

/-- Terminal outcome of one run of main, identified by which final console
message the run prints. -/
inductive Outcome where
  | success : Outcome
  | nodata : Outcome
  | failure : String → Outcome
deriving DecidableEq

/-- Resolution of everything outside the program text for one run of main:
the calendar date, the result of the Plaid network call, whether each
database statement raises, the value the latest query returns (which row
wins a retrieved_date tie is decided by the database engine, so it is part
of the environment; theorems about real runs constrain it by membership in
latestResults), and the result of the OpenRouter completion call. -/
structure Env where
  today : Nat
  fetch : Except String PyJson
  saveRawErr : Option String
  latestRes : Except String (Option PyJson)
  gen : PyJson → Except String String
  saveRecErr : Option String

/-- One console message printed by main.  Each constructor corresponds to
one print statement in src/main.py; msgText gives the printed text (emoji
prefix omitted). -/
inductive Msg where
  | starting : Msg
  | rawSaved : Msg
  | llmSaved : Msg
  | noData : Msg
  | errorMsg : String → Msg
deriving DecidableEq

/-- The text of a console message as printed by src/main.py. -/
def msgText : Msg → String
  | .starting => "Starting daily pipeline..."
  | .rawSaved => "Transaction data saved."
  | .llmSaved => "LLM summary saved to DB."
  | .noData => "No transaction data found for today."
  | .errorMsg e => "Error in pipeline: " ++ e

/-- Whether a console message is the error diagnostic of the top-level
exception handler in main. -/
def isErrMsg : Msg → Bool
  | .errorMsg _ => true
  | _ => false

/-- Observable result of one run of main: the final database, the terminal
outcome, how many times generate_insights and save_recommendation were
invoked, and the printed messages in order. -/
structure RunResult where
  db : DB
  outcome : Outcome
  genCalls : Nat
  recCalls : Nat
  prints : List Msg

/-- The body of main in src/main.py: fetch, save raw, read back the latest
snapshot, and if that value is truthy, generate insights and upsert the
recommendation; any exception from a step is caught by the single
try/except, which prints one diagnostic and returns normally. -/
def mainRun (db0 : DB) (env : Env) : RunResult :=
  let p0 : List Msg := [Msg.starting]
  match env.fetch with
  | .error e =>
      { db := db0, outcome := .failure e, genCalls := 0, recCalls := 0,
        prints := p0 ++ [Msg.errorMsg e] }
  | .ok data =>
      match env.saveRawErr with
      | some e =>
          { db := db0, outcome := .failure e, genCalls := 0, recCalls := 0,
            prints := p0 ++ [Msg.errorMsg e] }
      | none =>
          let db1 : DB := { db0 with raw := insertRaw db0.raw data env.today }
          let p1 : List Msg := p0 ++ [Msg.rawSaved]
          match env.latestRes with
          | .error e =>
              { db := db1, outcome := .failure e, genCalls := 0, recCalls := 0,
                prints := p1 ++ [Msg.errorMsg e] }
          | .ok none =>
              { db := db1, outcome := .nodata, genCalls := 0, recCalls := 0,
                prints := p1 ++ [Msg.noData] }
          | .ok (some p) =>
              if pyTruthy p then
                  match env.gen p with
                  | .error e =>
                      { db := db1, outcome := .failure e, genCalls := 1,
                        recCalls := 0,
                        prints := p1 ++ [Msg.errorMsg e] }
                  | .ok summary =>
                      match env.saveRecErr with
                      | some e =>
                          { db := db1, outcome := .failure e, genCalls := 1,
                            recCalls := 1,
                            prints := p1 ++ [Msg.errorMsg e] }
                      | none =>
                          { db := { raw := db1.raw,
                                    recs := (upsertRec db1.recs db1.recNextId
                                              env.today summary).1,
                                    recNextId := (upsertRec db1.recs db1.recNextId
                                              env.today summary).2 },
                            outcome := .success, genCalls := 1, recCalls := 1,
                            prints := p1 ++ [Msg.llmSaved] }
              else
                { db := db1, outcome := .nodata, genCalls := 0, recCalls := 0,
                  prints := p1 ++ [Msg.noData] }

/-- The error diagnostics among the printed messages of a run. -/
def errPrints (r : RunResult) : List Msg :=
  r.prints.filter isErrMsg

/-- The process configuration read from environment variables at startup
(src/main.py lines 17 to 48).  A field is none when the variable is unset. -/
structure ProcConfig where
  plaidEnv : Option String
  plaidClientId : Option String
  plaidSecret : Option String
  plaidAccessToken : Option String
  openaiApiKey : Option String
  databaseUrl : Option String

/-- ASCII lowercasing, modelling the Python str.lower() call (character by
character; kernel-reducible, unlike String.toLower). -/
def pyLower (s : String) : String :=
  ⟨s.data.map Char.toLower⟩

/-- The environment selector the module actually uses:
os.getenv("PLAID_ENV", "sandbox").lower(). -/
def plaidEnvName (c : ProcConfig) : String :=
  pyLower (c.plaidEnv.getD "sandbox")

/-- The module-level startup sequence of src/main.py (lines 17 to 51), in
source order.  (1) Lines 19 to 26: the PLAID_ENV selector check, the only
validation written in the program itself; an unknown selector raises
ValueError.  (2) Lines 28 to 36: Configuration and PlaidApi only store the
client id, secret and access token; absent Plaid credentials raise nothing
here and are never checked before fetch_transactions runs.  (3) Lines 40 to
44: the OpenAI v1 client constructor raises OpenAIError when it ends up with
no API key; the explicit api_key argument is os.getenv("OPENAI_API_KEY") and
the constructor falls back to that same environment variable, so it raises
at module init exactly when that variable is unset.  (4) Lines 48 to 51:
psycopg2.connect is attempted on DATABASE_URL at startup; whether that
attempt raises depends on the database environment, so its outcome is the
input connectRes.  Returns the selected Plaid base URL when the whole
sequence completes. -/
def startupRun (c : ProcConfig) (connectRes : Except String Unit) :
    Except String String :=
  let baseUrl : Except String String :=
    if plaidEnvName c = "sandbox" then .ok "https://sandbox.plaid.com"
    else if plaidEnvName c = "development" then
      .ok "https://development.plaid.com"
    else if plaidEnvName c = "production" then
      .ok "https://production.plaid.com"
    else .error "Invalid PLAID_ENV. Use sandbox, development, or production."
  match baseUrl with
  | .error e => .error e
  | .ok u =>
      match c.openaiApiKey with
      | none => .error "The api_key client option must be set"
      | some _ =>
          match connectRes with
          | .error e => .error e
          | .ok _ => .ok u

/-- Whether the module-level startup sequence completes without raising. -/
def startupOk (c : ProcConfig) (connectRes : Except String Unit) : Bool :=
  match startupRun c connectRes with
  | .ok _ => true
  | .error _ => false

/-- The row the specification says a latest query must pick (section 3 of
the spec): maximal under retrievedDate descending with ties broken by
surrogate id descending.  This definition follows the words of the spec and
exists only to be compared against the implemented query latestResults. -/
def specLatestRow : List RawRow → Option RawRow
  | [] => none
  | r :: rs =>
    match specLatestRow rs with
    | none => some r
    | some b =>
      if b.retrievedDate < r.retrievedDate ∨
         (b.retrievedDate = r.retrievedDate ∧ b.id < r.id) then some r
      else some b

/-- The payload the specification ordering would return from a latest query. -/
def specLatest (t : List RawRow) : Option PyJson :=
  (specLatestRow t).map (fun r => r.data)

/-! Helper lemmas about maxDate and the latest query. -/

lemma maxDate_cons (a : RawRow) (t : List RawRow) :
    maxDate (a :: t) = max a.retrievedDate (maxDate t) := rfl

lemma maxDate_append_single (t : List RawRow) (r : RawRow) :
    maxDate (t ++ [r]) = max (maxDate t) r.retrievedDate := by
  induction t with
  | nil =>
      simp only [List.nil_append, maxDate, List.foldr_cons, List.foldr_nil]
      omega
  | cons a t ih =>
      rw [List.cons_append, maxDate_cons, ih, maxDate_cons]
      omega

lemma mem_le_maxDate {r : RawRow} {t : List RawRow} (h : r ∈ t) :
    r.retrievedDate ≤ maxDate t := by
  induction t with
  | nil => cases h
  | cons a t ih =>
      rw [maxDate_cons]
      rcases List.mem_cons.mp h with rfl | h2
      · omega
      · have := ih h2; omega

lemma maxDate_le {t : List RawRow} {d : Nat}
    (h : ∀ r ∈ t, r.retrievedDate ≤ d) : maxDate t ≤ d := by
  induction t with
  | nil => simp [maxDate]
  | cons a t ih =>
      rw [maxDate_cons]
      have h1 := h a (List.mem_cons_self a t)
      have h2 := ih (fun r hr => h r (List.mem_cons_of_mem a hr))
      omega

lemma exists_maxDate {t : List RawRow} (h : t ≠ []) :
    ∃ r ∈ t, r.retrievedDate = maxDate t := by
  induction t with
  | nil => exact absurd rfl h
  | cons a t ih =>
      cases t with
      | nil =>
          refine ⟨a, List.mem_cons_self a [], ?_⟩
          rw [maxDate_cons]
          simp [maxDate]
      | cons b t' =>
          rcases Nat.le_total (maxDate (b :: t')) a.retrievedDate with hle | hle
          · refine ⟨a, List.mem_cons_self _ _, ?_⟩
            rw [maxDate_cons]; omega
          · obtain ⟨r, hr, he⟩ := ih (by simp)
            refine ⟨r, List.mem_cons_of_mem _ hr, ?_⟩
            rw [maxDate_cons]; omega

lemma maxDate_insertRaw {t : List RawRow} {d : Nat} (p : PyJson)
    (h : ∀ r ∈ t, r.retrievedDate ≤ d) : maxDate (insertRaw t p d) = d := by
  rw [insertRaw, maxDate_append_single]
  have := maxDate_le h
  simp only []
  omega

lemma insertRaw_isEmpty (t : List RawRow) (p : PyJson) (d : Nat) :
    (insertRaw t p d).isEmpty = false := by
  rw [insertRaw]
  rcases t with _ | ⟨a, t⟩ <;> simp

/-- C1: the claim states that save_raw of payload P followed immediately by
get_latest_transactions returns P even when other rows share the same
retrievedDate.  This is false: the implemented query orders only by
retrieved_date with no tie-break, so after appending payload 20 to a table
already holding payload 10 under the same date, returning payload 10 is a
permitted result of the query, and 10 is not 20. -/
theorem c1_roundtrip_counterexample :
    some (PyJson.num 10) ∈
      latestResults (insertRaw [⟨1, 5, PyJson.num 10⟩] (PyJson.num 20) 5) ∧
    PyJson.num 10 ≠ PyJson.num 20 := by
  constructor
  · have h : latestResults (insertRaw [⟨1, 5, PyJson.num 10⟩] (PyJson.num 20) 5)
        = [some (PyJson.num 10), some (PyJson.num 20)] := rfl
    rw [h]
    exact List.Mem.head _
  · intro h
    injection h with h2
    omega

/-- C1 amended: after save_raw of payload P under date D, P is among the
permitted results of get_latest_transactions provided no stored row is dated
after D, and it is the unique result when every stored row is dated strictly
before D; when another row shares the maximal retrievedDate the query may
return that row instead (see the counterexample). -/
theorem c1_roundtrip_amended (t : List RawRow) (p : PyJson) (d : Nat) :
    ((∀ r ∈ t, r.retrievedDate ≤ d) →
       some p ∈ latestResults (insertRaw t p d)) ∧
    ((∀ r ∈ t, r.retrievedDate < d) →
       latestResults (insertRaw t p d) = [some p]) := by
  constructor
  · intro h
    have hmax := maxDate_insertRaw p h
    rw [latestResults, insertRaw_isEmpty, if_neg (by simp)]
    refine List.mem_map.mpr ⟨⟨nextRawId t, d, p⟩, List.mem_filter.mpr ⟨?_, ?_⟩, rfl⟩
    · rw [insertRaw]
      exact List.mem_append_right _ (List.Mem.head _)
    · rw [hmax]
      simp
  · intro h
    have hle : ∀ r ∈ t, r.retrievedDate ≤ d := fun r hr => Nat.le_of_lt (h r hr)
    have hmax := maxDate_insertRaw p hle
    rw [latestResults, insertRaw_isEmpty, if_neg (by simp), hmax, insertRaw,
      List.filter_append]
    have hft : t.filter (fun r => decide (r.retrievedDate = d)) = [] := by
      refine List.filter_eq_nil_iff.mpr (fun r hr => ?_)
      have := h r hr
      simp only [decide_eq_true_eq]
      omega
    rw [hft]
    simp

/-- Witness for the amended C1 at a concrete input: a table whose single row
is dated before the appended date, so the round trip is exact. -/
theorem c1_roundtrip_amended_witness :
    some (PyJson.num 20) ∈
      latestResults (insertRaw [⟨1, 4, PyJson.num 10⟩] (PyJson.num 20) 5) ∧
    latestResults (insertRaw [⟨1, 4, PyJson.num 10⟩] (PyJson.num 20) 5)
      = [some (PyJson.num 20)] :=
  ⟨(c1_roundtrip_amended [⟨1, 4, PyJson.num 10⟩] (PyJson.num 20) 5).1
      (by intro r hr; simp only [List.mem_singleton] at hr; subst hr; decide),
   (c1_roundtrip_amended [⟨1, 4, PyJson.num 10⟩] (PyJson.num 20) 5).2
      (by intro r hr; simp only [List.mem_singleton] at hr; subst hr; decide)⟩

lemma specLatestRow_eq_none {t : List RawRow} (h : specLatestRow t = none) :
    t = [] := by
  cases t with
  | nil => rfl
  | cons a t =>
      rcases h2 : specLatestRow t with _ | b <;>
        simp only [specLatestRow, h2] at h
      · cases h
      · by_cases hc : b.retrievedDate < a.retrievedDate ∨
            (b.retrievedDate = a.retrievedDate ∧ b.id < a.id)
        · rw [if_pos hc] at h; cases h
        · rw [if_neg hc] at h; cases h

lemma specLatestRow_spec (t : List RawRow) :
    ∀ r, specLatestRow t = some r →
      r ∈ t ∧ r.retrievedDate = maxDate t := by
  induction t with
  | nil => intro r h; cases h
  | cons a t ih =>
      intro r h
      rw [maxDate_cons]
      rcases h2 : specLatestRow t with _ | b <;>
        simp only [specLatestRow, h2] at h
      · cases h
        have ht : t = [] := specLatestRow_eq_none h2
        subst ht
        exact ⟨List.mem_cons_self _ _, by simp [maxDate]⟩
      · obtain ⟨hbmem, hbmax⟩ := ih b h2
        by_cases hc : b.retrievedDate < a.retrievedDate ∨
            (b.retrievedDate = a.retrievedDate ∧ b.id < a.id)
        · rw [if_pos hc] at h
          cases h
          exact ⟨List.mem_cons_self _ _, by omega⟩
        · rw [if_neg hc] at h
          cases h
          push_neg at hc
          exact ⟨List.mem_cons_of_mem _ hbmem, by omega⟩

/-- C2: the claim states that on a non-empty table get_latest_transactions
returns the payload of the row maximal under retrievedDate descending with
ties broken by id descending.  This is false: the implemented query has no
tie-break column, so on a table holding two rows of the same date the spec
ordering picks the row with the larger id (payload 20) while the query is
also permitted to return the other row (payload 10). -/
theorem c2_latest_ordering_counterexample :
    specLatest [⟨1, 5, PyJson.num 10⟩, ⟨2, 5, PyJson.num 20⟩]
      = some (PyJson.num 20) ∧
    some (PyJson.num 10) ∈
      latestResults [⟨1, 5, PyJson.num 10⟩, ⟨2, 5, PyJson.num 20⟩] ∧
    some (PyJson.num 10) ≠ (some (PyJson.num 20) : Option PyJson) := by
  refine ⟨rfl, ?_, ?_⟩
  · have h : latestResults [⟨1, 5, PyJson.num 10⟩, ⟨2, 5, PyJson.num 20⟩]
        = [some (PyJson.num 10), some (PyJson.num 20)] := rfl
    rw [h]
    exact List.Mem.head _
  · intro h
    injection h with h2
    injection h2 with h3
    omega

/-- C2 amended: on the empty table the query returns the absent signal; on a
non-empty table every permitted result of the query is the payload of some
row whose retrievedDate is maximal, and the payload of the row picked by the
spec ordering (retrievedDate descending, id descending) is among the
permitted results, but on ties it is not the only one. -/
theorem c2_latest_ordering_amended (t : List RawRow) :
    (t = [] → latestResults t = [none]) ∧
    (t ≠ [] →
      (∀ x ∈ latestResults t, ∃ r, r ∈ t ∧ x = some r.data ∧
        ∀ q ∈ t, q.retrievedDate ≤ r.retrievedDate) ∧
      specLatest t ∈ latestResults t) := by
  constructor
  · intro h; subst h; rfl
  · intro h
    have hne : ¬ (t.isEmpty = true) := by simp [h]
    constructor
    · intro x hx
      rw [latestResults, if_neg hne] at hx
      obtain ⟨r, hrf, hrx⟩ := List.mem_map.mp hx
      obtain ⟨hrt, hrd⟩ := List.mem_filter.mp hrf
      simp only [decide_eq_true_eq] at hrd
      refine ⟨r, hrt, hrx.symm, fun q hq => ?_⟩
      have := mem_le_maxDate hq
      omega
    · rcases hs : specLatestRow t with _ | r
      · exact absurd (specLatestRow_eq_none hs) h
      · have hd : specLatest t = some r.data := by rw [specLatest, hs]; rfl
        rw [hd, latestResults, if_neg hne]
        refine List.mem_map.mpr
          ⟨r, List.mem_filter.mpr ⟨(specLatestRow_spec t r hs).1, ?_⟩, rfl⟩
        simp [(specLatestRow_spec t r hs).2]

/-- Witness for the amended C2 at concrete inputs: the empty table yields
the absent signal, and on a two-row table with distinct dates the payload
picked by the spec ordering is a permitted result of the query. -/
theorem c2_latest_ordering_amended_witness :
    latestResults [] = [none] ∧
    specLatest [⟨1, 4, PyJson.num 10⟩, ⟨2, 5, PyJson.num 20⟩] ∈
      latestResults [⟨1, 4, PyJson.num 10⟩, ⟨2, 5, PyJson.num 20⟩] :=
  ⟨(c2_latest_ordering_amended []).1 rfl,
   ((c2_latest_ordering_amended [⟨1, 4, PyJson.num 10⟩, ⟨2, 5, PyJson.num 20⟩]).2
      (by simp)).2⟩

/-- C3: the claim states that every absent or invalid required
configuration value makes the program fail at startup with a descriptive
error before any network call.  This is false: with the environment
selector valid, the client credential pair and API key set, the database
reachable, and only the Plaid access token absent, the whole startup
sequence of lines 17 to 51 completes without raising, so the run proceeds
into the pipeline and attempts the fetch with the absent credential. -/
theorem c3_failfast_counterexample :
    startupRun { plaidEnv := some "sandbox", plaidClientId := some "cid",
                 plaidSecret := some "sec", plaidAccessToken := none,
                 openaiApiKey := some "key",
                 databaseUrl := some "postgres:db" } (.ok ())
      = Except.ok "https://sandbox.plaid.com" ∧
    ProcConfig.plaidAccessToken
      { plaidEnv := some "sandbox", plaidClientId := some "cid",
        plaidSecret := some "sec", plaidAccessToken := none,
        openaiApiKey := some "key",
        databaseUrl := some "postgres:db" } = none :=
  ⟨rfl, rfl⟩

/-- C3 amended: startup completes exactly when the lowercased environment
selector (defaulting to sandbox when unset) is one of sandbox, development
or production, the completion-service API key is present (the OpenAI client
constructor raises at module init when it is absent), and the database
connection attempt made at startup succeeds; the Plaid client credential
pair and access token are never validated at startup, so startup success is
independent of those three fields and their absence surfaces only during
the pipeline run, at the fetch step. -/
theorem c3_failfast_amended (c : ProcConfig) (cr : Except String Unit) :
    (startupOk c cr = true ↔
       ((plaidEnvName c = "sandbox" ∨ plaidEnvName c = "development" ∨
         plaidEnvName c = "production") ∧
        c.openaiApiKey.isSome = true ∧ cr = Except.ok ())) ∧
    (∀ x y z, startupOk
        { c with plaidClientId := x, plaidSecret := y, plaidAccessToken := z }
        cr = startupOk c cr) := by
  constructor
  · unfold startupOk startupRun
    by_cases h1 : plaidEnvName c = "sandbox" <;>
      by_cases h2 : plaidEnvName c = "development" <;>
        by_cases h3 : plaidEnvName c = "production" <;>
          rcases hk : c.openaiApiKey with _ | k <;>
            rcases hcr : cr with e | u <;>
              simp [h1, h2, h3, hk, hcr]
  · intro x y z
    rfl

/-- Witness for the amended C3 at a concrete input: the production
selector, a present API key, a succeeding connection attempt, and no Plaid
credentials at all pass startup. -/
theorem c3_failfast_amended_witness :
    startupOk { plaidEnv := some "production", plaidClientId := none,
                plaidSecret := none, plaidAccessToken := none,
                openaiApiKey := some "key", databaseUrl := none }
      (.ok ()) = true :=
  (c3_failfast_amended _ _).1.mpr ⟨Or.inr (Or.inr rfl), rfl, rfl⟩

lemma updRec_date (d : Nat) (s : String) (r : RecRow) :
    (updRec d s r).date = r.date := by
  unfold updRec
  split <;> rfl

lemma filter_map_updRec (t : List RecRow) (d : Nat) (s : String) :
    (t.map (updRec d s)).filter (fun r => r.date = d)
      = (t.filter (fun r => r.date = d)).map (updRec d s) := by
  induction t with
  | nil => rfl
  | cons a t ih =>
      by_cases h : a.date = d <;>
        simp [List.filter_cons, updRec_date, h, ih]

/-- C4: upserting summary S1 and then S2 for the same date leaves exactly
one record for that date, holding S2 and the envelope around S2, with the
id and date it had after the first write.  The hypothesis is the UNIQUE
constraint on the date column: at most one stored record per date. -/
theorem c4_upsert_idempotent (t : List RecRow) (n d : Nat) (s1 s2 : String)
    (h : (t.filter (fun r => r.date = d)).length ≤ 1) :
    (upsertRec t n d s1).1.filter (fun r => r.date = d)
        = [⟨upsertKeyId t n d, d, s1, recEnvelope s1⟩] ∧
    (upsertRec (upsertRec t n d s1).1 (upsertRec t n d s1).2 d s2).1.filter
        (fun r => r.date = d)
        = [⟨upsertKeyId t n d, d, s2, recEnvelope s2⟩] := by
  by_cases ha : t.any (fun r => r.date = d) = true
  · rcases hf : t.filter (fun r => r.date = d) with _ | ⟨q, rest⟩
    · obtain ⟨r0, hr0t, hr0d⟩ := List.any_eq_true.mp ha
      have := List.filter_eq_nil_iff.mp hf r0 hr0t
      exact absurd hr0d this
    · have hrest : rest = [] := by
        rw [hf] at h
        simp only [List.length_cons] at h
        exact List.length_eq_zero.mp (by omega)
      subst hrest
      have hqmem : q ∈ t.filter (fun r => r.date = d) := by
        rw [hf]; exact List.Mem.head _
      obtain ⟨hqt, hqd0⟩ := List.mem_filter.mp hqmem
      have hqd : q.date = d := by simpa using hqd0
      have hkey : upsertKeyId t n d = q.id := by rw [upsertKeyId, hf]
      have e1 : upsertRec t n d s1 = (t.map (updRec d s1), n) := by
        rw [upsertRec, if_pos ha]
      have hq1 : updRec d s1 q = ⟨q.id, d, s1, recEnvelope s1⟩ := by
        rw [updRec, if_pos hqd, hqd]
      have hf1 : (t.map (updRec d s1)).filter (fun r => r.date = d)
          = [updRec d s1 q] := by
        rw [filter_map_updRec, hf]
        rfl
      have ht1any : (t.map (updRec d s1)).any (fun r => r.date = d) = true := by
        refine List.any_eq_true.mpr ⟨updRec d s1 q, List.mem_map_of_mem _ hqt, ?_⟩
        simp [updRec_date, hqd]
      have e2 : upsertRec (t.map (updRec d s1)) n d s2
          = ((t.map (updRec d s1)).map (updRec d s2), n) := by
        rw [upsertRec, if_pos ht1any]
      have hf2 : ((t.map (updRec d s1)).map (updRec d s2)).filter
            (fun r => r.date = d)
          = [updRec d s2 (updRec d s1 q)] := by
        rw [filter_map_updRec, hf1]
        rfl
      have hq2 : updRec d s2 (updRec d s1 q) = ⟨q.id, d, s2, recEnvelope s2⟩ := by
        rw [hq1, updRec]
        simp
      constructor
      · rw [e1, hf1, hq1, hkey]
      · rw [e1, e2, hf2, hq2, hkey]
  · have hft : t.filter (fun r => r.date = d) = [] := by
      refine List.filter_eq_nil_iff.mpr (fun r hr => ?_)
      simp only [decide_eq_true_eq]
      intro hrd
      exact ha (List.any_eq_true.mpr ⟨r, hr, by simp [hrd]⟩)
    have hkey : upsertKeyId t n d = n := by rw [upsertKeyId, hft]
    have e1 : upsertRec t n d s1 = (t ++ [⟨n, d, s1, recEnvelope s1⟩], n + 1) := by
      rw [upsertRec, if_neg ha]
    have hf1 : (t ++ [(⟨n, d, s1, recEnvelope s1⟩ : RecRow)]).filter
          (fun r => r.date = d)
        = [(⟨n, d, s1, recEnvelope s1⟩ : RecRow)] := by
      rw [List.filter_append, hft]
      simp
    have ht1any : (t ++ [(⟨n, d, s1, recEnvelope s1⟩ : RecRow)]).any
        (fun r => r.date = d) = true :=
      List.any_eq_true.mpr ⟨⟨n, d, s1, recEnvelope s1⟩,
        List.mem_append_right _ (List.Mem.head _), by simp⟩
    have e2 : upsertRec (t ++ [(⟨n, d, s1, recEnvelope s1⟩ : RecRow)]) (n + 1) d s2
        = ((t ++ [(⟨n, d, s1, recEnvelope s1⟩ : RecRow)]).map (updRec d s2), n + 1) := by
      rw [upsertRec, if_pos ht1any]
    have hf2 : ((t ++ [(⟨n, d, s1, recEnvelope s1⟩ : RecRow)]).map (updRec d s2)).filter
          (fun r => r.date = d)
        = [updRec d s2 ⟨n, d, s1, recEnvelope s1⟩] := by
      rw [filter_map_updRec, hf1]
      rfl
    have hq2 : updRec d s2 (⟨n, d, s1, recEnvelope s1⟩ : RecRow)
        = ⟨n, d, s2, recEnvelope s2⟩ := by
      rw [updRec]
      simp
    constructor
    · rw [e1, hf1, hkey]
    · rw [e1, e2, hf2, hq2, hkey]

/-- Witness for C4 at a concrete input: two upserts into the empty table for
date 7, first summary a then summary b. -/
theorem c4_upsert_idempotent_witness :
    (([] : List RecRow).filter (fun r => r.date = 7)).length ≤ 1 ∧
    ((upsertRec [] 1 7 "a").1.filter (fun r => r.date = 7)
        = [⟨upsertKeyId [] 1 7, 7, "a", recEnvelope "a"⟩] ∧
     (upsertRec (upsertRec [] 1 7 "a").1 (upsertRec [] 1 7 "a").2 7 "b").1.filter
        (fun r => r.date = 7)
        = [⟨upsertKeyId [] 1 7, 7, "b", recEnvelope "b"⟩]) :=
  ⟨by decide, c4_upsert_idempotent [] 1 7 "a" "b" (by decide)⟩

/-- C5: in any run of main in which the latest read yields the absent
signal (Python None), the run completes through the no-data branch, which
is reported and not an error, with generate_insights and
save_recommendation never invoked. -/
theorem c5_absent_skips_generation (db : DB) (env : Env) (p : PyJson)
    (hf : env.fetch = .ok p) (hs : env.saveRawErr = none)
    (hl : env.latestRes = .ok none) :
    (mainRun db env).outcome = Outcome.nodata ∧
    (mainRun db env).genCalls = 0 ∧ (mainRun db env).recCalls = 0 := by
  simp [mainRun, hf, hs, hl]

/-- Witness for C5 at a concrete input. -/
theorem c5_absent_skips_generation_witness :
    (mainRun ⟨[], [], 1⟩
      ⟨3, .ok (PyJson.num 1), none, .ok none, fun _ => .ok "s", none⟩).outcome
      = Outcome.nodata ∧
    (mainRun ⟨[], [], 1⟩
      ⟨3, .ok (PyJson.num 1), none, .ok none, fun _ => .ok "s", none⟩).genCalls
      = 0 ∧
    (mainRun ⟨[], [], 1⟩
      ⟨3, .ok (PyJson.num 1), none, .ok none, fun _ => .ok "s", none⟩).recCalls
      = 0 :=
  c5_absent_skips_generation _ _ (PyJson.num 1) rfl rfl rfl

/-- C6: when fetch_transactions raises, the single try/except aborts the
run before the raw insert: the whole database is unchanged and the run
terminates in the failure outcome carrying the fetch error. -/
theorem c6_fetch_error_no_write (db : DB) (env : Env) (e : String)
    (hf : env.fetch = .error e) :
    (mainRun db env).db = db ∧
    (mainRun db env).outcome = Outcome.failure e ∧
    (mainRun db env).genCalls = 0 ∧ (mainRun db env).recCalls = 0 := by
  simp [mainRun, hf]

/-- Witness for C6 at a concrete input. -/
theorem c6_fetch_error_no_write_witness :
    (mainRun ⟨[], [], 1⟩
      ⟨3, .error "down", none, .ok none, fun _ => .ok "s", none⟩).db
      = ⟨[], [], 1⟩ ∧
    (mainRun ⟨[], [], 1⟩
      ⟨3, .error "down", none, .ok none, fun _ => .ok "s", none⟩).outcome
      = Outcome.failure "down" ∧
    (mainRun ⟨[], [], 1⟩
      ⟨3, .error "down", none, .ok none, fun _ => .ok "s", none⟩).genCalls
      = 0 ∧
    (mainRun ⟨[], [], 1⟩
      ⟨3, .error "down", none, .ok none, fun _ => .ok "s", none⟩).recCalls
      = 0 :=
  c6_fetch_error_no_write _ _ "down" rfl

/-- C7: when the raw insert succeeds and generate_insights then raises, the
run aborts holding the newly appended snapshot in the raw table while the
recommendations table is untouched and save_recommendation is never
invoked. -/
theorem c7_generation_error_frame (db : DB) (env : Env) (p q : PyJson)
    (ge : String) (hf : env.fetch = .ok p) (hs : env.saveRawErr = none)
    (hl : env.latestRes = .ok (some q)) (ht : pyTruthy q = true)
    (hg : env.gen q = .error ge) :
    (mainRun db env).db.raw = insertRaw db.raw p env.today ∧
    (mainRun db env).db.recs = db.recs ∧
    (mainRun db env).db.recNextId = db.recNextId ∧
    (mainRun db env).outcome = Outcome.failure ge ∧
    (mainRun db env).recCalls = 0 := by
  simp [mainRun, hf, hs, hl, ht, hg]

/-- Witness for C7 at a concrete input. -/
theorem c7_generation_error_frame_witness :
    (mainRun ⟨[], [⟨9, 2, "old", recEnvelope "old"⟩], 10⟩
      ⟨3, .ok (PyJson.num 1), none, .ok (some (PyJson.num 1)),
        fun _ => .error "quota", none⟩).db.raw
      = insertRaw [] (PyJson.num 1) 3 ∧
    (mainRun ⟨[], [⟨9, 2, "old", recEnvelope "old"⟩], 10⟩
      ⟨3, .ok (PyJson.num 1), none, .ok (some (PyJson.num 1)),
        fun _ => .error "quota", none⟩).db.recs
      = [⟨9, 2, "old", recEnvelope "old"⟩] ∧
    (mainRun ⟨[], [⟨9, 2, "old", recEnvelope "old"⟩], 10⟩
      ⟨3, .ok (PyJson.num 1), none, .ok (some (PyJson.num 1)),
        fun _ => .error "quota", none⟩).db.recNextId = 10 ∧
    (mainRun ⟨[], [⟨9, 2, "old", recEnvelope "old"⟩], 10⟩
      ⟨3, .ok (PyJson.num 1), none, .ok (some (PyJson.num 1)),
        fun _ => .error "quota", none⟩).outcome
      = Outcome.failure "quota" ∧
    (mainRun ⟨[], [⟨9, 2, "old", recEnvelope "old"⟩], 10⟩
      ⟨3, .ok (PyJson.num 1), none, .ok (some (PyJson.num 1)),
        fun _ => .error "quota", none⟩).recCalls = 0 :=
  c7_generation_error_frame _ _ (PyJson.num 1) (PyJson.num 1) "quota"
    rfl rfl rfl rfl rfl

/-- C8: the try/except in main catches every component error: a run that
fails prints exactly one error diagnostic, which is the last message
printed, and every run terminates in one of the three reported outcomes. -/
theorem c8_top_level_catch (db : DB) (env : Env) :
    (∀ e, (mainRun db env).outcome = Outcome.failure e →
       errPrints (mainRun db env) = [Msg.errorMsg e] ∧
       (mainRun db env).prints.getLast? = some (Msg.errorMsg e)) ∧
    ((mainRun db env).outcome = Outcome.success ∨
       (mainRun db env).outcome = Outcome.nodata →
       errPrints (mainRun db env) = []) ∧
    ((mainRun db env).outcome = Outcome.success ∨
     (mainRun db env).outcome = Outcome.nodata ∨
     ∃ e, (mainRun db env).outcome = Outcome.failure e) := by
  rcases hf : env.fetch with e | p
  · simp [mainRun, hf, errPrints, isErrMsg]
  · rcases hs : env.saveRawErr with _ | e
    · rcases hl : env.latestRes with e | v
      · simp [mainRun, hf, hs, hl, errPrints, isErrMsg]
      · rcases v with _ | q
        · simp [mainRun, hf, hs, hl, errPrints, isErrMsg]
        · by_cases ht : pyTruthy q = true
          · rcases hg : env.gen q with e | sm
            · simp [mainRun, hf, hs, hl, ht, hg, errPrints, isErrMsg]
            · rcases hr : env.saveRecErr with _ | e
              · simp [mainRun, hf, hs, hl, ht, hg, hr, errPrints, isErrMsg]
              · simp [mainRun, hf, hs, hl, ht, hg, hr, errPrints, isErrMsg]
          · have ht2 : pyTruthy q = false := by
              rw [Bool.not_eq_true] at ht
              exact ht
            simp [mainRun, hf, hs, hl, ht2, errPrints, isErrMsg]
    · simp [mainRun, hf, hs, errPrints, isErrMsg]

/-- Witness for C8 at a concrete input: a failing fetch yields exactly one
error diagnostic, printed last. -/
theorem c8_top_level_catch_witness :
    errPrints (mainRun ⟨[], [], 1⟩
      ⟨3, .error "down2", none, .ok none, fun _ => .ok "s", none⟩)
      = [Msg.errorMsg "down2"] ∧
    (mainRun ⟨[], [], 1⟩
      ⟨3, .error "down2", none, .ok none, fun _ => .ok "s", none⟩).prints.getLast?
      = some (Msg.errorMsg "down2") :=
  (c8_top_level_catch ⟨[], [], 1⟩
    ⟨3, .error "down2", none, .ok none, fun _ => .ok "s", none⟩).1 "down2" rfl

/-- C9: save_raw only appends one new row, and a whole run of main leaves
every pre-existing raw row in place, in order: the final raw table is the
initial one plus a possibly empty appended suffix; no operation updates or
deletes a raw snapshot. -/
theorem c9_raw_append_only :
    (∀ (t : List RawRow) (p : PyJson) (d : Nat),
       insertRaw t p d = t ++ [⟨nextRawId t, d, p⟩]) ∧
    (∀ (db : DB) (env : Env), ∃ ext,
       (mainRun db env).db.raw = db.raw ++ ext) := by
  constructor
  · intro t p d
    rfl
  · intro db env
    rcases hf : env.fetch with e | p
    · exact ⟨[], by simp [mainRun, hf]⟩
    · rcases hs : env.saveRawErr with _ | e
      · refine ⟨[⟨nextRawId db.raw, env.today, p⟩], ?_⟩
        rcases hl : env.latestRes with e | v
        · simp [mainRun, hf, hs, hl, insertRaw]
        · rcases v with _ | q
          · simp [mainRun, hf, hs, hl, insertRaw]
          · by_cases ht : pyTruthy q = true
            · rcases hg : env.gen q with e | sm
              · simp [mainRun, hf, hs, hl, ht, hg, insertRaw]
              · rcases hr : env.saveRecErr with _ | e
                · simp [mainRun, hf, hs, hl, ht, hg, hr, insertRaw]
                · simp [mainRun, hf, hs, hl, ht, hg, hr, insertRaw]
            · have ht2 : pyTruthy q = false := by
                rw [Bool.not_eq_true] at ht
                exact ht
              simp [mainRun, hf, hs, hl, ht2, insertRaw]
      · exact ⟨[], by simp [mainRun, hf, hs]⟩

/-- C10: when the value read back by the latest query is a falsy payload
such as the empty JSON object, main takes the no-data branch and skips
both generate_insights and save_recommendation even though the raw table
is non-empty: the branch tests Python truthiness of the payload, not table
emptiness. -/
theorem c10_falsy_payload_nodata (db : DB) (env : Env) (p q : PyJson)
    (hf : env.fetch = .ok p) (hs : env.saveRawErr = none)
    (hl : env.latestRes = .ok (some q))
    (_hmem : some q ∈ latestResults (insertRaw db.raw p env.today))
    (ht : pyTruthy q = false) :
    (mainRun db env).outcome = Outcome.nodata ∧
    (mainRun db env).genCalls = 0 ∧ (mainRun db env).recCalls = 0 ∧
    (mainRun db env).db.raw ≠ [] := by
  simp [mainRun, hf, hs, hl, ht, insertRaw]

/-- Witness for C10 at a concrete input: the fetched payload is the empty
JSON object, which is stored, read back (it is the only stored row, hence
the most recent), and judged falsy. -/
theorem c10_falsy_payload_nodata_witness :
    (mainRun ⟨[], [], 1⟩
      ⟨3, .ok (PyJson.obj []), none, .ok (some (PyJson.obj [])),
        fun _ => .ok "s", none⟩).outcome = Outcome.nodata ∧
    (mainRun ⟨[], [], 1⟩
      ⟨3, .ok (PyJson.obj []), none, .ok (some (PyJson.obj [])),
        fun _ => .ok "s", none⟩).genCalls = 0 ∧
    (mainRun ⟨[], [], 1⟩
      ⟨3, .ok (PyJson.obj []), none, .ok (some (PyJson.obj [])),
        fun _ => .ok "s", none⟩).recCalls = 0 ∧
    (mainRun ⟨[], [], 1⟩
      ⟨3, .ok (PyJson.obj []), none, .ok (some (PyJson.obj [])),
        fun _ => .ok "s", none⟩).db.raw ≠ [] :=
  c10_falsy_payload_nodata ⟨[], [], 1⟩ _ (PyJson.obj []) (PyJson.obj [])
    rfl rfl rfl
    (by
      have h : latestResults (insertRaw [] (PyJson.obj []) 3)
          = [some (PyJson.obj [])] := rfl
      rw [h]
      exact List.Mem.head _)
    rfl
